import Mathlib

/-!
Shallow embedding of the credis key-value access layer (blocking `Client`
in credis/__init__.py and suspending `AsyncClient` in credis/asyncio.py)
together with the store, codec and sentinel collaborators it drives, and
proofs settling the frozen claims about it.

Modelling conventions:
* Python byte strings appearing as raw user input (the `bytes` /
  `memoryview` cases of `KeyT`) are lists of naturals (`Bytes`).
* Byte strings held by the store are modelled by the free datatype `BStr`
  distinguishing the UTF-8 encoding of a text from the opaque output of
  the serialization codec (dill) on an application value; the codec is a
  black box for which the spec guarantees the round-trip contract, so its
  output is represented freely by the constructor `BStr.pickled`.
* Fallible Python code (raising) is modelled with `Option` / explicit
  error results; machine-level concerns (event loop scheduling) are
  modelled by explicit state passing and a step relation.
-/

/-- Byte sequences: each entry is one byte (0..255). -/
abbrev Bytes := List Nat

/-- UTF-8 encoding of one Unicode code point (code points are < 0x110000,
as guaranteed by `Char`). -/
def utf8EncodeChar (c : Nat) : Bytes :=
  if c < 0x80 then [c]
  else if c < 0x800 then [0xC0 + c / 0x40, 0x80 + c % 0x40]
  else if c < 0x10000 then
    [0xE0 + c / 0x1000, 0x80 + (c / 0x40) % 0x40, 0x80 + c % 0x40]
  else
    [0xF0 + c / 0x40000, 0x80 + (c / 0x1000) % 0x40, 0x80 + (c / 0x40) % 0x40,
      0x80 + c % 0x40]

/-- UTF-8 encoding of a text, as Python produces with s.encode("utf-8"). -/
def utf8Encode (s : String) : Bytes :=
  s.data.foldr (fun c acc => utf8EncodeChar c.toNat ++ acc) []

/-- Strict UTF-8 decoder on code-point lists, rejecting truncated
sequences, stray continuation bytes, overlong forms, surrogates and
out-of-range code points, exactly as Python bytes.decode("utf-8") does
(returning `none` where Python raises UnicodeDecodeError). -/
def utf8DecodeChars : Bytes → Option (List Char)
  | [] => some []
  | b0 :: rest =>
    if b0 < 0x80 then
      (utf8DecodeChars rest).map (fun cs => Char.ofNat b0 :: cs)
    else if b0 < 0xC2 then none
    else if b0 < 0xE0 then
      match rest with
      | b1 :: rest1 =>
        if 0x80 ≤ b1 && b1 < 0xC0 then
          (utf8DecodeChars rest1).map
            (fun cs => Char.ofNat ((b0 - 0xC0) * 0x40 + (b1 - 0x80)) :: cs)
        else none
      | [] => none
    else if b0 < 0xF0 then
      match rest with
      | b1 :: b2 :: rest2 =>
        if (0x80 ≤ b1 && b1 < 0xC0) && (0x80 ≤ b2 && b2 < 0xC0) then
          let cp := (b0 - 0xE0) * 0x1000 + (b1 - 0x80) * 0x40 + (b2 - 0x80)
          if cp < 0x800 then none
          else if 0xD800 ≤ cp && cp < 0xE000 then none
          else (utf8DecodeChars rest2).map (fun cs => Char.ofNat cp :: cs)
        else none
      | _ => none
    else if b0 < 0xF5 then
      match rest with
      | b1 :: b2 :: b3 :: rest3 =>
        if (0x80 ≤ b1 && b1 < 0xC0) && (0x80 ≤ b2 && b2 < 0xC0) &&
            (0x80 ≤ b3 && b3 < 0xC0) then
          let cp := (b0 - 0xF0) * 0x40000 + (b1 - 0x80) * 0x1000 +
            (b2 - 0x80) * 0x40 + (b3 - 0x80)
          if cp < 0x10000 then none
          else if 0x110000 ≤ cp then none
          else (utf8DecodeChars rest3).map (fun cs => Char.ofNat cp :: cs)
        else none
      | _ => none
    else none

/-- Decoding a byte sequence as UTF-8 text; `none` models the
UnicodeDecodeError raise of Python bytes.decode("utf-8"). -/
def utf8Decode (b : Bytes) : Option String :=
  (utf8DecodeChars b).map (fun cs => String.mk cs)

/-- Lower-case hexadecimal digit, as used by the \xNN escapes of the
Python bytes repr. -/
def hexDigit (n : Nat) : Char :=
  if n < 10 then Char.ofNat (48 + n) else Char.ofNat (87 + n)

/-- Characters contributed by one byte inside the Python repr of a bytes
object delimited by the quote character with code `q`: backslash and the
delimiter are escaped, tab, newline and carriage return use their short
escapes, other printable ASCII is literal and everything else becomes a
\xNN escape. -/
def byteReprChars (q b : Nat) : List Char :=
  if b = 92 then [Char.ofNat 92, Char.ofNat 92]
  else if b = q then [Char.ofNat 92, Char.ofNat q]
  else if b = 9 then [Char.ofNat 92, Char.ofNat 116]
  else if b = 10 then [Char.ofNat 92, Char.ofNat 110]
  else if b = 13 then [Char.ofNat 92, Char.ofNat 114]
  else if 32 ≤ b ∧ b ≤ 126 then [Char.ofNat b]
  else [Char.ofNat 92, Char.ofNat 120, hexDigit (b / 16), hexDigit (b % 16)]

/-- Python repr of a bytes object (what str() returns on bytes): a b
prefix, then the byte text in single quotes, switching to double quotes
when the bytes contain a single quote but no double quote, exactly as
CPython chooses. -/
def bytesRepr (bs : Bytes) : String :=
  let q : Nat := if bs.contains 39 && !(bs.contains 34) then 34 else 39
  String.mk ([Char.ofNat 98, Char.ofNat q] ++
    (bs.flatMap (byteReprChars q)) ++ [Char.ofNat q])

/-- Raw key argument type of the client operations, mirroring the
redis KeyT union: decoded text, a bytes object, a memoryview buffer or a
stringifiable scalar (the int case; floats are outside this model). -/
inductive PyKey where
  | str (s : String)
  | bytes (b : Bytes)
  | mem (b : Bytes)
  | int (n : Int)
deriving DecidableEq, Repr

/-- Result of the Python built-in str() on a raw key. The memoryview
case is address-dependent in CPython, so it is represented by a fixed
stand-in text; no theorem below depends on its value. -/
def pyStr : PyKey → String
  | .str s => s
  | .bytes b => bytesRepr b
  | .mem _ => "<memoryview object>"
  | .int n => toString n

/-- Application values handed to the client (the opaque payloads the
codec serializes). A small but structured universe: text, integers,
None and string-keyed dictionaries, enough to express every claim. -/
inductive PyVal where
  | str (s : String)
  | int (n : Int)
  | noneV
  | dict (entries : List (String × PyVal))

mutual

def PyVal.decEq : (a b : PyVal) → Decidable (a = b)
  | .str a, .str b =>
    if h : a = b then isTrue (h ▸ rfl) else isFalse (fun hh => h (PyVal.str.inj hh))
  | .int a, .int b =>
    if h : a = b then isTrue (h ▸ rfl) else isFalse (fun hh => h (PyVal.int.inj hh))
  | .noneV, .noneV => isTrue rfl
  | .dict xs, .dict ys =>
    match PyVal.decEqEntries xs ys with
    | isTrue h => isTrue (h ▸ rfl)
    | isFalse h => isFalse (fun hh => h (PyVal.dict.inj hh))
  | .str _, .int _ => isFalse (fun h => PyVal.noConfusion h)
  | .str _, .noneV => isFalse (fun h => PyVal.noConfusion h)
  | .str _, .dict _ => isFalse (fun h => PyVal.noConfusion h)
  | .int _, .str _ => isFalse (fun h => PyVal.noConfusion h)
  | .int _, .noneV => isFalse (fun h => PyVal.noConfusion h)
  | .int _, .dict _ => isFalse (fun h => PyVal.noConfusion h)
  | .noneV, .str _ => isFalse (fun h => PyVal.noConfusion h)
  | .noneV, .int _ => isFalse (fun h => PyVal.noConfusion h)
  | .noneV, .dict _ => isFalse (fun h => PyVal.noConfusion h)
  | .dict _, .str _ => isFalse (fun h => PyVal.noConfusion h)
  | .dict _, .int _ => isFalse (fun h => PyVal.noConfusion h)
  | .dict _, .noneV => isFalse (fun h => PyVal.noConfusion h)

def PyVal.decEqEntries :
    (a b : List (String × PyVal)) → Decidable (a = b)
  | [], [] => isTrue rfl
  | [], _ :: _ => isFalse (fun h => List.noConfusion h)
  | _ :: _, [] => isFalse (fun h => List.noConfusion h)
  | (k1, v1) :: r1, (k2, v2) :: r2 =>
    if hk : k1 = k2 then
      match PyVal.decEq v1 v2 with
      | isTrue hv =>
        match PyVal.decEqEntries r1 r2 with
        | isTrue hr => isTrue (by rw [hk, hv, hr])
        | isFalse hr => isFalse (by intro h; injection h with h1 h2; exact hr h2)
      | isFalse hv => isFalse (by
          intro h; injection h with h1 h2
          injection h1 with hk1 hv1; exact hv hv1)
    else isFalse (by
      intro h; injection h with h1 h2
      injection h1 with hk1 hv1; exact hk hk1)

end

instance : DecidableEq PyVal := PyVal.decEq

/-- Byte strings as held by the store: either the UTF-8 bytes of a text
(what redis stores for a str argument sent without the codec) or the
opaque output of the serialization codec on an application value. The
codec (dill) is an external black box with the round-trip contract
decode(encode(v)) == v, so its outputs are modelled freely. -/
inductive BStr where
  | utf8 (s : String)
  | pickled (v : PyVal)
deriving DecidableEq

/-- Deserialization (pickle.loads): inverts the codec on codec output and
fails (DecodeError) on byte strings that are not codec output. -/
def pickleLoads : BStr → Option PyVal
  | .pickled v => some v
  | .utf8 _ => none

/-- Decoding a stored byte string as text (the .decode() call applied to
reply fields): text bytes decode to their text, codec output is not
meaningful text. -/
def bstrDecode : BStr → Option String
  | .utf8 s => some s
  | .pickled _ => none

/-- Client.make_key of both variants (credis/__init__.py lines 115-122,
credis/asyncio.py lines 77-84): bytes and memoryview inputs are UTF-8
decoded (raising UnicodeDecodeError on invalid UTF-8, modelled by
`none`), any other input is converted with str(), then the application
prefix and a colon are prepended. -/
def make_key (p : String) : PyKey → Option String
  | .bytes b => (utf8Decode b).map (fun s => p ++ ":" ++ s)
  | .mem b => (utf8Decode b).map (fun s => p ++ ":" ++ s)
  | k => some (p ++ ":" ++ pyStr k)

/-- Namespaced key produced for an input that is already text: the str()
branch of make_key. Operations whose source reads make_key(str(name))
always take this branch. -/
def mkKey (p t : String) : String := p ++ ":" ++ t

/-- String representation underlying make_key: UTF-8 decoding for bytes
and buffers, str() for everything else. make_key succeeds exactly on
inputs where this succeeds and appends it to the prefix and colon. -/
def strRep : PyKey → Option String
  | .bytes b => utf8Decode b
  | .mem b => utf8Decode b
  | k => some (pyStr k)

theorem make_key_eq_strRep (p : String) (k : PyKey) :
    make_key p k = (strRep k).map (fun r => p ++ ":" ++ r) := by
  cases k <;> simp [make_key, strRep]

theorem make_key_str (p t : String) : make_key p (.str t) = some (mkKey p t) := rfl

example : make_key "app" (.bytes [0x75, 0x2A]) = some "app:u*" := by decide
example : utf8Decode [0xFF] = none := by decide
example : pyStr (.bytes [120]) = "b'x'" := by decide

/-- Fuel-bounded core of redis glob-style matching over character
lists: star (code 42) matches any sequence, the question mark (code 63)
matches any one character, other characters match literally (character
classes are outside this model; no claim involves them). Each recursive
call shrinks the combined length, so fuel beyond that bound never runs
out. -/
def globMatchF : Nat → List Char → List Char → Bool
  | 0, _, _ => false
  | _ + 1, [], [] => true
  | _ + 1, [], _ :: _ => false
  | f + 1, p :: ps, [] => if p = Char.ofNat 42 then globMatchF f ps [] else false
  | f + 1, p :: ps, c :: cs =>
    if p = Char.ofNat 42 then
      globMatchF f ps (c :: cs) || globMatchF f (p :: ps) cs
    else if p = Char.ofNat 63 then globMatchF f ps cs
    else (p = c) && globMatchF f ps cs

/-- Redis glob-style matching of a pattern against a key. -/
def globMatch (p s : List Char) : Bool :=
  globMatchF (p.length + s.length + 1) p s

/-- Values held at a store key: a plain byte string or a hash. Hash
field names always reach the store as the UTF-8 bytes of the text field
names the client sends, so they are kept as text here; replies present
them as byte strings again. -/
inductive RVal where
  | str (b : BStr)
  | hash (fields : List (String × BStr))
deriving DecidableEq

/-- The underlying key-value store: an association of key names to
values, newest binding first and duplicate-free by construction of
`Store.insert`. -/
abbrev Store := List (String × RVal)

/-- Binding currently held at a key. -/
def Store.lookup (s : Store) (k : String) : Option RVal := List.lookup k s

/-- Writing a binding: removes any previous binding of the key. -/
def Store.insert (s : Store) (k : String) (v : RVal) : Store :=
  (k, v) :: s.filter (fun e => e.1 != k)

/-- Removing one key. -/
def Store.remove (s : Store) (k : String) : Store :=
  s.filter (fun e => e.1 != k)

/-- Removing a list of keys, as the DEL command does. -/
def Store.removeAll (s : Store) (ks : List String) : Store :=
  ks.foldl (fun acc k => acc.remove k) s

/-- Number of listed keys currently bound (the DEL reply). -/
def Store.countPresent (s : Store) (ks : List String) : Nat :=
  (ks.filter (fun k => (s.lookup k).isSome)).length

/-- Key names currently bound, newest first. -/
def Store.keysOf (s : Store) : List String := s.map (fun e => e.1)

/-- Updating one hash field: replaces the binding in place or appends
the new field at the end, matching redis field insertion order. -/
def setField (l : List (String × BStr)) (f : String) (v : BStr) :
    List (String × BStr) :=
  if l.any (fun e => e.1 == f) then
    l.map (fun e => if e.1 == f then (f, v) else e)
  else l ++ [(f, v)]

/-- Folding a batch of field updates into a hash, as HSET does. -/
def setFields (l news : List (String × BStr)) : List (String × BStr) :=
  news.foldl (fun acc fv => setField acc fv.1 fv.2) l

/-- Number of fields of a batch that are new to the hash (the HSET
reply counts created fields, not overwritten ones). -/
def countNewFields (l news : List (String × BStr)) : Nat :=
  ((news.map (fun e => e.1)).eraseDups.filter
    (fun f => !(l.any (fun e => e.1 == f)))).length

/-- Semantic error kinds surfaced by the client layer, matching
credis/exceptions.py plus the kinds that propagate from collaborators:
SentinelError (REDIS_2002), ConnectionError (builtin, raised by both
connect paths on discovery failure), InitError (REDIS_2003), the codec
failure on unpicklable reply bytes, the UnicodeDecodeError escaping
make_key on invalid UTF-8 bytes, the store WRONGTYPE reply, and an
uncaught collaborator exception of any other class. -/
inductive Err where
  | sentinelError
  | connectionError
  | initError
  | decodeError
  | unicodeError
  | typeError
  | otherError
deriving DecidableEq

/-- Results of the public operations, covering every reply shape the
modelled operations produce: the None sentinel, integers, a decoded
application value, the simple OK status, lists of byte strings (KEYS),
a decoded dictionary (blocking hgetall), a raw byte-to-byte reply
dictionary (suspending hgetall), decoded value lists (MGET) and the
cursor-page pair of SCAN. -/
inductive Res where
  | noneR
  | int (n : Int)
  | py (v : PyVal)
  | okSimple
  | bstrList (l : List BStr)
  | dictSP (l : List (String × PyVal))
  | dictBB (l : List (BStr × BStr))
  | pyList (l : List PyVal)
  | scanPair (cursor : Int) (ks : List BStr)
deriving DecidableEq

/-- Traversal decoding the values of a reply dictionary with the codec
while turning field-name bytes back into text, as the blocking hgetall
comprehension does; `none` models the raises (DecodeError on a value the
codec cannot reconstruct). -/
def decodeHashReply : List (String × BStr) → Option (List (String × PyVal))
  | [] => some []
  | (f, b) :: rest =>
    match pickleLoads b with
    | none => none
    | some v => (decodeHashReply rest).map (fun l => (f, v) :: l)

/-- Traversal decoding an MGET reply element-wise: a None entry stays
None, other entries must be codec output. -/
def decodeValueList : List (Option BStr) → Option (List PyVal)
  | [] => some []
  | none :: rest => (decodeValueList rest).map (fun l => PyVal.noneV :: l)
  | some b :: rest =>
    match pickleLoads b with
    | none => none
    | some v => (decodeValueList rest).map (fun l => v :: l)

/-- Blocking client state (credis/__init__.py Client): the application
prefix plus presence of the three connection handles and the connected
flag. A handle field is true exactly when the Python attribute is not
None; closing a connection does not clear its attribute. -/
structure Client where
  app_pfx : String
  sentinel : Bool
  master : Bool
  slave : Bool
  connected : Bool
deriving DecidableEq, Repr

/-- State of a freshly constructed blocking client: __init__ runs
__connect eagerly and propagates its exceptions, so an observable
blocking client starts with every handle present and connected true. -/
def Client.initial (p : String) : Client :=
  { app_pfx := p, sentinel := true, master := true, slave := true,
    connected := true }

/-- Client.close (lines 134-141): closes the role connections without
clearing their attributes, drops the sentinel handle and resets the
connected flag. -/
def Client.close (c : Client) : Client :=
  { c with sentinel := false, connected := false }

/-- Client.ping (lines 143-146): master-routed, guard then PING. -/
def Client.ping (c : Client) (s : Store) : Except Err Res × Store :=
  if c.master = false then (.error .initError, s)
  else (.ok .okSimple, s)

/-- Client.set (lines 148-176, default flags): guard, make_key on the
raw name, codec-encode the value, write to the master. -/
def Client.set (c : Client) (s : Store) (name : PyKey) (v : PyVal) :
    Except Err Res × Store :=
  if c.master = false then (.error .initError, s)
  else
    match make_key c.app_pfx name with
    | none => (.error .unicodeError, s)
    | some k => (.ok .okSimple, s.insert k (.str (.pickled v)))

/-- Client.get (lines 178-185): guard, make_key(str(name)), read from
the slave, None passes through, other replies are codec-decoded. -/
def Client.get (c : Client) (s : Store) (name : PyKey) :
    Except Err Res × Store :=
  if c.slave = false then (.error .initError, s)
  else
    let k := mkKey c.app_pfx (pyStr name)
    match s.lookup k with
    | none => (.ok .noneR, s)
    | some (.hash _) => (.error .typeError, s)
    | some (.str b) =>
      match pickleLoads b with
      | none => (.error .decodeError, s)
      | some v => (.ok (.py v), s)

/-- Client.incr (lines 187-191): guard, make_key(str(name)), INCR on the
master; the store INCR applies to integer-text bytes and errors on other
content, creating a missing key at the given amount. -/
def Client.incr (c : Client) (s : Store) (name : PyKey) (amount : Int) :
    Except Err Res × Store :=
  if c.master = false then (.error .initError, s)
  else
    let k := mkKey c.app_pfx (pyStr name)
    match s.lookup k with
    | none => (.ok (.int amount), s.insert k (.str (.utf8 (toString amount))))
    | some (.hash _) => (.error .typeError, s)
    | some (.str b) =>
      match bstrDecode b with
      | none => (.error .typeError, s)
      | some t =>
        match t.toInt? with
        | none => (.error .typeError, s)
        | some n =>
          (.ok (.int (n + amount)),
            s.insert k (.str (.utf8 (toString (n + amount)))))

/-- Client.mget (lines 223-228): guard, make_key(str(k)) on every key,
MGET from the slave, element-wise decode with None preserved. -/
def Client.mget (c : Client) (s : Store) (keys : List PyKey) :
    Except Err Res × Store :=
  if c.slave = false then (.error .initError, s)
  else
    let ks := keys.map (fun k => mkKey c.app_pfx (pyStr k))
    let raw := ks.map (fun k =>
      match s.lookup k with
      | some (.str b) => some b
      | _ => none)
    match decodeValueList raw with
    | none => (.error .decodeError, s)
    | some l => (.ok (.pyList l), s)

/-- Client.mset (lines 230-234): guard, prefix every key with
make_key(str(k)) and codec-encode every value, MSET on the master. -/
def Client.mset (c : Client) (s : Store) (m : List (PyKey × PyVal)) :
    Except Err Res × Store :=
  if c.master = false then (.error .initError, s)
  else
    (.ok .okSimple,
      m.foldl (fun acc kv =>
        acc.insert (mkKey c.app_pfx (pyStr kv.1)) (.str (.pickled kv.2))) s)

/-- Client.delete (lines 236-240): guard, make_key(str(name)) on every
name, DEL on the master, reply is the number of keys removed. -/
def Client.delete (c : Client) (s : Store) (names : List String) :
    Except Err Res × Store :=
  if c.master = false then (.error .initError, s)
  else
    let ks := names.map (fun n => mkKey c.app_pfx n)
    (.ok (.int (s.countPresent ks)), s.removeAll ks)

/-- Client.delete_raw (lines 242-245): guard, then DEL on the master
with the names exactly as given - no prefix is applied. -/
def Client.delete_raw (c : Client) (s : Store) (names : List String) :
    Except Err Res × Store :=
  if c.master = false then (.error .initError, s)
  else (.ok (.int (s.countPresent names)), s.removeAll names)

/-- Client.exists (lines 323-327): guard, prefix every name, EXISTS on
the slave counting present keys. -/
def Client.exists_ (c : Client) (s : Store) (names : List String) :
    Except Err Res × Store :=
  if c.slave = false then (.error .initError, s)
  else
    let ks := names.map (fun n => mkKey c.app_pfx n)
    (.ok (.int (s.countPresent ks)), s)

/-- Client.keys (lines 329-333): guard, then the pattern sent to the
store is the f-string prefix:str(pattern) - str() conversion, not the
make_key transform (bytes are repr-converted, not UTF-8 decoded). -/
def Client.keys (c : Client) (s : Store) (pat : PyKey) :
    Except Err Res × Store :=
  if c.slave = false then (.error .initError, s)
  else
    let p := c.app_pfx ++ ":" ++ pyStr pat
    (.ok (.bstrList (((s.keysOf).filter
      (fun k => globMatch p.data k.data)).map .utf8)), s)

/-- Client.scan (lines 497-507): guard, then the cursor, match pattern,
count and type arguments are forwarded to the store verbatim - no
prefix is applied to the pattern. The store pass is modelled as one
full sweep: reply cursor 0 plus every matching key. -/
def Client.scan (c : Client) (s : Store) (_cursor : Int)
    (mtch : Option String) : Except Err Res × Store :=
  if c.slave = false then (.error .initError, s)
  else
    let ks := match mtch with
      | none => s.keysOf
      | some p => (s.keysOf).filter (fun k => globMatch p.data k.data)
    (.ok (.scanPair 0 (ks.map .utf8)), s)

/-- Client.hset (lines 335-352, mapping form): guard, make_key(str(name)),
codec-encode every mapping value while leaving field names as the plain
texts given, HSET on the master; reply counts newly created fields. -/
def Client.hset (c : Client) (s : Store) (name : PyKey)
    (mapping : List (String × PyVal)) : Except Err Res × Store :=
  if c.master = false then (.error .initError, s)
  else
    let k := mkKey c.app_pfx (pyStr name)
    let news := mapping.map (fun fv => (fv.1, BStr.pickled fv.2))
    match s.lookup k with
    | some (.str _) => (.error .typeError, s)
    | some (.hash old) =>
      (.ok (.int (countNewFields old news)), s.insert k (.hash (setFields old news)))
    | none =>
      (.ok (.int (countNewFields [] news)), s.insert k (.hash (setFields [] news)))

/-- Client.hget (lines 354-359): guard, make_key(str(name)), HGET from
the slave, None passes through, other replies codec-decoded. -/
def Client.hget (c : Client) (s : Store) (name : PyKey) (field : String) :
    Except Err Res × Store :=
  if c.slave = false then (.error .initError, s)
  else
    let k := mkKey c.app_pfx (pyStr name)
    match s.lookup k with
    | none => (.ok .noneR, s)
    | some (.str _) => (.error .typeError, s)
    | some (.hash fields) =>
      match List.lookup field fields with
      | none => (.ok .noneR, s)
      | some b =>
        match pickleLoads b with
        | none => (.error .decodeError, s)
        | some v => (.ok (.py v), s)

/-- Client.hgetall (lines 361-368): guard, make_key(str(name)), HGETALL
raw reply from the slave (field-name bytes to value bytes), then the
comprehension decodes field names back to text and values through the
codec. -/
def Client.hgetall (c : Client) (s : Store) (name : PyKey) :
    Except Err Res × Store :=
  if c.slave = false then (.error .initError, s)
  else
    let k := mkKey c.app_pfx (pyStr name)
    match s.lookup k with
    | none => (.ok (.dictSP []), s)
    | some (.str _) => (.error .typeError, s)
    | some (.hash fields) =>
      match decodeHashReply fields with
      | none => (.error .decodeError, s)
      | some l => (.ok (.dictSP l), s)

/-- The routing roles: writes go to the master (primary) connection,
reads to the slave (replica) connection. -/
inductive Role where
  | primary
  | replica
deriving DecidableEq, Repr

/-- Enumeration of the modelled public blocking operations with their
arguments. The three blocking generator iterators (hscan_iter,
sscan_iter, zscan_iter) are outside this enumeration: calling a Python
generator function runs none of its body, so they have no
invocation-time behavior to enumerate here. -/
inductive BOp where
  | pingOp
  | setOp (name : PyKey) (v : PyVal)
  | getOp (name : PyKey)
  | incrOp (name : PyKey) (amount : Int)
  | mgetOp (keys : List PyKey)
  | msetOp (m : List (PyKey × PyVal))
  | deleteOp (names : List String)
  | deleteRawOp (names : List String)
  | existsOp (names : List String)
  | keysOp (pat : PyKey)
  | scanOp (cursor : Int) (mtch : Option String)
  | hsetOp (name : PyKey) (mapping : List (String × PyVal))
  | hgetOp (name : PyKey) (field : String)
  | hgetallOp (name : PyKey)
deriving DecidableEq

/-- Static role of each modelled operation, read off the connection its
source guards and dispatches on. -/
def BOp.role : BOp → Role
  | .pingOp => .primary
  | .setOp _ _ => .primary
  | .getOp _ => .replica
  | .incrOp _ _ => .primary
  | .mgetOp _ => .replica
  | .msetOp _ => .primary
  | .deleteOp _ => .primary
  | .deleteRawOp _ => .primary
  | .existsOp _ => .replica
  | .keysOp _ => .replica
  | .scanOp _ _ => .replica
  | .hsetOp _ _ => .primary
  | .hgetOp _ _ => .replica
  | .hgetallOp _ => .replica

/-- Presence of the connection handle an operation requires. -/
def Client.hasRole (c : Client) : Role → Bool
  | .primary => c.master
  | .replica => c.slave

/-- Dispatch of one modelled blocking operation. -/
def Client.invoke (c : Client) (s : Store) : BOp → Except Err Res × Store
  | .pingOp => c.ping s
  | .setOp name v => c.set s name v
  | .getOp name => c.get s name
  | .incrOp name amount => c.incr s name amount
  | .mgetOp keys => c.mget s keys
  | .msetOp m => c.mset s m
  | .deleteOp names => c.delete s names
  | .deleteRawOp names => c.delete_raw s names
  | .existsOp names => c.exists_ s names
  | .keysOp pat => c.keys s pat
  | .scanOp cursor mtch => c.scan s cursor mtch
  | .hsetOp name mapping => c.hset s name mapping
  | .hgetOp name field => c.hget s name field
  | .hgetallOp name => c.hgetall s name

/-- Availability of the external sentinel collaborator as seen by one
connect attempt: whether the Sentinel(...) constructor call succeeds and
whether the discovery round (discover_master / discover_slaves /
master_for / slave_for) succeeds. An unreachable monitoring cluster
surfaces in the discovery round - constructing the Sentinel object
performs no network communication. -/
structure SentinelEnv where
  constructOk : Bool
  discoveryOk : Bool
deriving DecidableEq, Repr

/-- Suspending client state (credis/asyncio.py AsyncClient): same
fields as the blocking client; the constructor does not connect. -/
structure AsyncClient where
  app_pfx : String
  sentinel : Bool
  master : Bool
  slave : Bool
  connected : Bool
deriving DecidableEq, Repr

/-- State of a freshly constructed suspending client (lines 31-50):
no handles, not connected. -/
def AsyncClient.initial (p : String) : AsyncClient :=
  { app_pfx := p, sentinel := false, master := false, slave := false,
    connected := false }

/-- AsyncClient.connect (lines 52-75): assigns the sentinel handle (the
constructor call is outside the try block, so its failure propagates as
the collaborator exception, not SentinelError); then the discovery round
inside the try block either populates master and slave and sets
connected, or raises ConnectionError leaving the rest of the state as it
was. SentinelError is raised on no path (asyncio.py does not import it). -/
def AsyncClient.connect (e : SentinelEnv) (c : AsyncClient) :
    Except Err Unit × AsyncClient :=
  if e.constructOk = false then (.error .otherError, c)
  else
    let c1 := { c with sentinel := true }
    if e.discoveryOk = false then (.error .connectionError, c1)
    else (.ok (), { c1 with master := true, slave := true, connected := true })

/-- The lazy connect check opening every suspending operation:
if not self.connected: await self.connect(). -/
def AsyncClient.ensureConnected (e : SentinelEnv) (c : AsyncClient) :
    Except Err Unit × AsyncClient :=
  if c.connected then (.ok (), c) else AsyncClient.connect e c

/-- AsyncClient.set (lines 152-182, default flags): lazy connect, guard,
make_key on the raw name, codec-encode, write to the master. -/
def AsyncClient.set (e : SentinelEnv) (c : AsyncClient) (s : Store)
    (name : PyKey) (v : PyVal) : Except Err Res × AsyncClient × Store :=
  match AsyncClient.ensureConnected e c with
  | (.error er, c1) => (.error er, c1, s)
  | (.ok _, c1) =>
    if c1.master = false then (.error .initError, c1, s)
    else
      match make_key c1.app_pfx name with
      | none => (.error .unicodeError, c1, s)
      | some k => (.ok .okSimple, c1, s.insert k (.str (.pickled v)))

/-- AsyncClient.get (lines 184-193): lazy connect, guard, make_key on
the raw name (no str() wrapper in this variant), read, decode. -/
def AsyncClient.get (e : SentinelEnv) (c : AsyncClient) (s : Store)
    (name : PyKey) : Except Err Res × AsyncClient × Store :=
  match AsyncClient.ensureConnected e c with
  | (.error er, c1) => (.error er, c1, s)
  | (.ok _, c1) =>
    if c1.slave = false then (.error .initError, c1, s)
    else
      match make_key c1.app_pfx name with
      | none => (.error .unicodeError, c1, s)
      | some k =>
        match s.lookup k with
        | none => (.ok .noneR, c1, s)
        | some (.hash _) => (.error .typeError, c1, s)
        | some (.str b) =>
          match pickleLoads b with
          | none => (.error .decodeError, c1, s)
          | some v => (.ok (.py v), c1, s)

/-- AsyncClient.delete (lines 260-266): lazy connect, guard, make_key on
every name, DEL on the master. -/
def AsyncClient.delete (e : SentinelEnv) (c : AsyncClient) (s : Store)
    (names : List String) : Except Err Res × AsyncClient × Store :=
  match AsyncClient.ensureConnected e c with
  | (.error er, c1) => (.error er, c1, s)
  | (.ok _, c1) =>
    if c1.master = false then (.error .initError, c1, s)
    else
      let ks := names.map (fun n => mkKey c1.app_pfx n)
      (.ok (.int (s.countPresent ks)), c1, s.removeAll ks)

/-- AsyncClient.delete_raw (lines 268-273): lazy connect, guard, DEL on
the master with the names exactly as given - no prefix. -/
def AsyncClient.delete_raw (e : SentinelEnv) (c : AsyncClient) (s : Store)
    (names : List String) : Except Err Res × AsyncClient × Store :=
  match AsyncClient.ensureConnected e c with
  | (.error er, c1) => (.error er, c1, s)
  | (.ok _, c1) =>
    if c1.master = false then (.error .initError, c1, s)
    else (.ok (.int (s.countPresent names)), c1, s.removeAll names)

/-- AsyncClient.keys (lines 379-385): lazy connect, guard, then the
pattern is transformed with make_key before KEYS - in this variant the
full make_key transform is applied, UTF-8 decode of bytes included. -/
def AsyncClient.keys (e : SentinelEnv) (c : AsyncClient) (s : Store)
    (pat : PyKey) : Except Err Res × AsyncClient × Store :=
  match AsyncClient.ensureConnected e c with
  | (.error er, c1) => (.error er, c1, s)
  | (.ok _, c1) =>
    if c1.slave = false then (.error .initError, c1, s)
    else
      match make_key c1.app_pfx pat with
      | none => (.error .unicodeError, c1, s)
      | some p =>
        (.ok (.bstrList (((s.keysOf).filter
          (fun k => globMatch p.data k.data)).map .utf8)), c1, s)

/-- AsyncClient.scan (lines 553-565): lazy connect, guard, then cursor
and match pattern forwarded to the store verbatim - no prefix. -/
def AsyncClient.scan (e : SentinelEnv) (c : AsyncClient) (s : Store)
    (_cursor : Int) (mtch : Option String) :
    Except Err Res × AsyncClient × Store :=
  match AsyncClient.ensureConnected e c with
  | (.error er, c1) => (.error er, c1, s)
  | (.ok _, c1) =>
    if c1.slave = false then (.error .initError, c1, s)
    else
      let ks := match mtch with
        | none => s.keysOf
        | some p => (s.keysOf).filter (fun k => globMatch p.data k.data)
      (.ok (.scanPair 0 (ks.map .utf8)), c1, s)

/-- AsyncClient.hset (lines 387-400): lazy connect, guard,
make_key(name), then the mapping is forwarded to the store hset
UNCHANGED - no codec encode is applied in this variant, so the store
receives the UTF-8 bytes of the text values. -/
def AsyncClient.hset (e : SentinelEnv) (c : AsyncClient) (s : Store)
    (name : PyKey) (mapping : List (String × String)) :
    Except Err Res × AsyncClient × Store :=
  match AsyncClient.ensureConnected e c with
  | (.error er, c1) => (.error er, c1, s)
  | (.ok _, c1) =>
    if c1.master = false then (.error .initError, c1, s)
    else
      match make_key c1.app_pfx name with
      | none => (.error .unicodeError, c1, s)
      | some k =>
        let news := mapping.map (fun fv => (fv.1, BStr.utf8 fv.2))
        match s.lookup k with
        | some (.str _) => (.error .typeError, c1, s)
        | some (.hash old) =>
          (.ok (.int (countNewFields old news)), c1,
            s.insert k (.hash (setFields old news)))
        | none =>
          (.ok (.int (countNewFields [] news)), c1,
            s.insert k (.hash (setFields [] news)))

/-- AsyncClient.hgetall (lines 410-416): lazy connect, guard,
make_key(name), then the raw store reply is returned UNCHANGED: a
dictionary from field-name bytes to value bytes, with no field decode
and no codec decode. -/
def AsyncClient.hgetall (e : SentinelEnv) (c : AsyncClient) (s : Store)
    (name : PyKey) : Except Err Res × AsyncClient × Store :=
  match AsyncClient.ensureConnected e c with
  | (.error er, c1) => (.error er, c1, s)
  | (.ok _, c1) =>
    if c1.slave = false then (.error .initError, c1, s)
    else
      match make_key c1.app_pfx name with
      | none => (.error .unicodeError, c1, s)
      | some k =>
        match s.lookup k with
        | none => (.ok (.dictBB []), c1, s)
        | some (.str _) => (.error .typeError, c1, s)
        | some (.hash fields) =>
          (.ok (.dictBB (fields.map (fun fv => (BStr.utf8 fv.1, fv.2)))), c1, s)

/-- AsyncClient.close (lines 136-143): closes the role connections
without clearing their attributes, drops the sentinel handle and resets
the connected flag. -/
def AsyncClient.close (c : AsyncClient) : AsyncClient :=
  { c with sentinel := false, connected := false }

/-- State transitions a blocking client can undergo after its eager
construction: close, and the public operations (which never assign the
handle attributes or the connected flag; a failed __connect during
__init__ propagates out of the constructor, so no client object exists
in that case). -/
inductive ClientStep : Client → Client → Prop
  | close (c : Client) : ClientStep c (Client.close c)
  | operation (c : Client) : ClientStep c c

/-- State transitions a suspending client can undergo: a completed
connect attempt (any sentinel availability), a connect cancelled at one
of its two discovery suspension points (the sentinel attribute is
already assigned; the master, slave and connected assignments are
straight-line code with no suspension point in between, so cancellation
cannot separate them), close, and the connect check opening every
public operation (operations make no other client-state change; a
cancellation inside the store call itself leaves the client state as
ensureConnected produced it). -/
inductive AsyncStep : AsyncClient → AsyncClient → Prop
  | connectDone (e : SentinelEnv) (c : AsyncClient) :
      AsyncStep c (AsyncClient.connect e c).2
  | connectCancelled (c : AsyncClient) :
      AsyncStep c { c with sentinel := true }
  | close (c : AsyncClient) : AsyncStep c (AsyncClient.close c)
  | operationEnsure (e : SentinelEnv) (c : AsyncClient) :
      AsyncStep c (AsyncClient.ensureConnected e c).2

/-- Connected-state invariant of the blocking client. -/
def Client.Inv (c : Client) : Prop :=
  c.connected = true → c.master = true ∧ c.slave = true

/-- Connected-state invariant of the suspending client. -/
def AsyncClient.Inv (c : AsyncClient) : Prop :=
  c.connected = true → c.master = true ∧ c.slave = true

theorem clientStep_preserves_Inv {c c2 : Client} (hInv : c.Inv)
    (h : ClientStep c c2) : c2.Inv := by
  cases h with
  | close => intro hc; simp [Client.close] at hc
  | operation => exact hInv

theorem connect_preserves_Inv {c : AsyncClient} (e : SentinelEnv)
    (hInv : c.Inv) : ((AsyncClient.connect e c).2).Inv := by
  unfold AsyncClient.connect
  by_cases h1 : e.constructOk = false
  · simpa [h1] using hInv
  · by_cases h2 : e.discoveryOk = false
    · simp only [h1, h2, Bool.false_eq_true, if_false, if_true]
      intro hc
      exact hInv hc
    · simp only [h1, h2, Bool.false_eq_true, if_false]
      exact fun _ => ⟨rfl, rfl⟩

theorem asyncStep_preserves_Inv {c c2 : AsyncClient} (hInv : c.Inv)
    (h : AsyncStep c c2) : c2.Inv := by
  cases h with
  | connectDone e => exact connect_preserves_Inv e hInv
  | connectCancelled =>
    intro hc
    exact hInv hc
  | close => intro hc; simp [AsyncClient.close] at hc
  | operationEnsure e =>
    unfold AsyncClient.ensureConnected
    by_cases h1 : c.connected
    · simpa [h1] using hInv
    · simp only [h1, if_false]
      exact connect_preserves_Inv e hInv

theorem lookup_filter_self (s : Store) (k : String) :
    List.lookup k (s.filter (fun e => e.1 != k)) = none := by
  induction s with
  | nil => rfl
  | cons e rest ih =>
    by_cases he : e.1 = k
    · have hd : (e.1 != k) = false := by simpa using he
      simp only [List.filter, hd]
      exact ih
    · have hd : (e.1 != k) = true := by simpa using he
      have hb : (k == e.1) = false := by
        simp only [beq_eq_false_iff_ne, ne_eq]
        intro hh
        exact he hh.symm
      simp only [List.filter, hd, List.lookup, hb]
      exact ih

theorem lookup_filter_ne (s : Store) (k k2 : String) (h : k2 ≠ k) :
    List.lookup k2 (s.filter (fun e => e.1 != k)) = List.lookup k2 s := by
  induction s with
  | nil => rfl
  | cons e rest ih =>
    by_cases he : e.1 = k
    · have hd : (e.1 != k) = false := by simpa using he
      have hb : (k2 == e.1) = false := by
        simp only [beq_eq_false_iff_ne, ne_eq]
        intro hh
        exact h (hh.trans he)
      simp only [List.filter, hd, List.lookup, hb]
      exact ih
    · have hd : (e.1 != k) = true := by simpa using he
      by_cases h2 : k2 = e.1
      · simp [List.filter, hd, List.lookup, h2]
      · have hb : (k2 == e.1) = false := by simpa using h2
        simp only [List.filter, hd, List.lookup, hb]
        exact ih

theorem lookup_insert (s : Store) (k : String) (v : RVal) :
    (s.insert k v).lookup k = some v := by
  simp [Store.insert, Store.lookup, List.lookup]

theorem lookup_insert_ne (s : Store) (k k2 : String) (v : RVal)
    (h : k2 ≠ k) : (s.insert k v).lookup k2 = s.lookup k2 := by
  have hb : (k2 == k) = false := by simpa using h
  simp only [Store.insert, Store.lookup, List.lookup, hb]
  exact lookup_filter_ne s k k2 h

theorem lookup_remove_self (s : Store) (k : String) :
    (s.remove k).lookup k = none := lookup_filter_self s k

theorem lookup_remove_ne (s : Store) (k k2 : String) (h : k2 ≠ k) :
    (s.remove k).lookup k2 = s.lookup k2 := lookup_filter_ne s k k2 h

theorem globMatchF_irrel :
    ∀ (f1 f2 : Nat) (p s : List Char), p.length + s.length < f1 →
      p.length + s.length < f2 → globMatchF f1 p s = globMatchF f2 p s := by
  intro f1
  induction f1 with
  | zero => intro f2 p s h1 h2; omega
  | succ f ih =>
    intro f2 p s h1 h2
    match f2, h2 with
    | g + 1, h2 =>
      match p, s with
      | [], [] => rfl
      | [], _ :: _ => rfl
      | p0 :: ps, [] =>
        simp only [globMatchF]
        by_cases hst : p0 = Char.ofNat 42
        · rw [if_pos hst, if_pos hst]
          exact ih g ps [] (by simp at h1 ⊢; omega) (by simp at h2 ⊢; omega)
        · rw [if_neg hst, if_neg hst]
      | p0 :: ps, c :: cs =>
        simp only [globMatchF]
        by_cases hst : p0 = Char.ofNat 42
        · rw [if_pos hst, if_pos hst,
            ih g ps (c :: cs) (by simp at h1 ⊢; omega) (by simp at h2 ⊢; omega),
            ih g (p0 :: ps) cs (by simp at h1 ⊢; omega) (by simp at h2 ⊢; omega)]
        · by_cases hq : p0 = Char.ofNat 63
          · rw [if_neg hst, if_neg hst, if_pos hq, if_pos hq]
            exact ih g ps cs (by simp at h1 ⊢; omega) (by simp at h2 ⊢; omega)
          · rw [if_neg hst, if_neg hst, if_neg hq, if_neg hq,
              ih g ps cs (by simp at h1 ⊢; omega) (by simp at h2 ⊢; omega)]

theorem globMatchF_eq_globMatch (f : Nat) (p s : List Char)
    (h : p.length + s.length < f) : globMatchF f p s = globMatch p s :=
  globMatchF_irrel f (p.length + s.length + 1) p s h (by omega)

theorem globMatchF_literal_peel :
    ∀ (l : List Char) (f : Nat) (pat s : List Char),
      (l ++ pat).length + s.length < f →
      (∀ ch ∈ l, ch ≠ Char.ofNat 42 ∧ ch ≠ Char.ofNat 63) →
      globMatchF f (l ++ pat) s = true →
      ∃ tail, s = l ++ tail ∧ globMatch pat tail = true := by
  intro l
  induction l with
  | nil =>
    intro f pat s hf _ h
    rw [List.nil_append] at h hf
    rw [globMatchF_eq_globMatch f pat s hf] at h
    exact ⟨s, rfl, h⟩
  | cons ch l2 ih =>
    intro f pat s hf hl h
    have hch := hl ch (by simp)
    match f, hf with
    | g + 1, hf =>
      match s with
      | [] =>
        exfalso
        simp only [List.cons_append, globMatchF] at h
        rw [if_neg hch.1] at h
        exact Bool.false_ne_true h
      | c :: cs =>
        simp only [List.cons_append, globMatchF] at h
        rw [if_neg hch.1, if_neg hch.2] at h
        have h2 := (Bool.and_eq_true _ _).mp h
        have hc : ch = c := by simpa using h2.1
        obtain ⟨tail, hs, hm⟩ := ih g pat cs
          (by simp at hf ⊢; omega) (fun x hx => hl x (by simp [hx])) h2.2
        exact ⟨tail, by simp [hc, hs], hm⟩

/-- Peeling a wildcard-free literal head off a glob pattern: a string
matching literal ++ pat must start with the literal, and its remainder
matches pat. -/
theorem globMatch_literal_peel (l pat s : List Char)
    (hl : ∀ ch ∈ l, ch ≠ Char.ofNat 42 ∧ ch ≠ Char.ofNat 63)
    (h : globMatch (l ++ pat) s = true) :
    ∃ tail, s = l ++ tail ∧ globMatch pat tail = true :=
  globMatchF_literal_peel l ((l ++ pat).length + s.length + 1) pat s
    (by omega) hl h

theorem string_append_left_cancel {p a b : String} (h : p ++ a = p ++ b) :
    a = b := by
  have hd : p.data ++ a.data = p.data ++ b.data := by
    simpa [String.data_append] using congrArg String.data h
  have : a.data = b.data := List.append_cancel_left hd
  cases a; cases b
  exact congrArg String.mk this

theorem invoke_no_initError (c : Client) (s : Store) (op : BOp)
    (h1 : c.master = true) (h2 : c.slave = true) :
    (Client.invoke c s op).1 ≠ .error .initError := by
  cases op <;>
    simp only [Client.invoke, Client.ping, Client.set, Client.get, Client.incr,
      Client.mget, Client.mset, Client.delete, Client.delete_raw,
      Client.exists_, Client.keys, Client.scan, Client.hset, Client.hget,
      Client.hgetall, h1, h2, Bool.true_eq_false, if_false] <;>
    (repeat' split) <;> try simp

/-- C6 counterexample: make_key is not total on byte sequences - the
byte 0xFF is not valid UTF-8, so make_key raises UnicodeDecodeError
(modelled as `none`) instead of succeeding. -/
theorem claim_C6_counterexample :
    make_key "app" (PyKey.bytes [0xFF]) = none := by decide

/-- C6 (amended): make_key is pure with no I/O and always succeeds on
text and stringifiable (int) inputs, producing prefix, colon and the
str() form; on byte-sequence and memoryview inputs it succeeds exactly
when the bytes decode as UTF-8 and raises UnicodeDecodeError
otherwise. -/
theorem claim_C6_make_key_totality :
    (∀ (p s : String), make_key p (.str s) = some (p ++ ":" ++ s)) ∧
    (∀ (p : String) (n : Int), make_key p (.int n) = some (p ++ ":" ++ toString n)) ∧
    (∀ (p : String) (b : Bytes),
      (make_key p (.bytes b)).isSome ↔ (utf8Decode b).isSome) ∧
    (∀ (p : String) (b : Bytes),
      (make_key p (.mem b)).isSome ↔ (utf8Decode b).isSome) := by
  refine ⟨fun p s => rfl, fun p n => rfl, fun p b => ?_, fun p b => ?_⟩ <;>
    simp [make_key]

/-- C8: make_key output always decomposes as prefix, colon, remainder;
raw keys whose string representations (UTF-8 decode for bytes and
buffers, str() otherwise) differ map to different namespaced keys under
one prefix; raw keys with identical string representations collide. -/
theorem claim_C8_namespacing :
    (∀ (p : String) (k : PyKey) (s2 : String), make_key p k = some s2 →
      ∃ rest, s2 = p ++ ":" ++ rest) ∧
    (∀ (p : String) (k1 k2 : PyKey) (r1 r2 : String), strRep k1 = some r1 →
      strRep k2 = some r2 → r1 ≠ r2 → make_key p k1 ≠ make_key p k2) ∧
    (∀ (p : String) (k1 k2 : PyKey), strRep k1 = strRep k2 →
      make_key p k1 = make_key p k2) := by
  refine ⟨?_, ?_, ?_⟩
  · intro p k s2 h
    rw [make_key_eq_strRep] at h
    cases hr : strRep k with
    | none => rw [hr] at h; exact absurd h (by simp)
    | some r =>
      rw [hr] at h
      simp only [Option.map] at h
      exact ⟨r, (Option.some.inj h).symm⟩
  · intro p k1 k2 r1 r2 h1 h2 hne heq
    rw [make_key_eq_strRep, make_key_eq_strRep, h1, h2] at heq
    simp only [Option.map, Option.some.injEq] at heq
    have h3 : (":" ++ r1 : String) = ":" ++ r2 :=
      string_append_left_cancel ((String.append_assoc p ":" r1) ▸
        (String.append_assoc p ":" r2) ▸ heq)
    exact hne (string_append_left_cancel h3)
  · intro p k1 k2 h
    rw [make_key_eq_strRep, make_key_eq_strRep, h]

theorem claim_C8_namespacing_witness :
    make_key "app" (.bytes [120]) = make_key "app" (.str "x") ∧
    make_key "app" (.str "a") ≠ make_key "app" (.str "b") ∧
    (∃ rest, "app:user:1" = "app" ++ ":" ++ rest) :=
  ⟨claim_C8_namespacing.2.2 "app" (.bytes [120]) (.str "x") (by decide),
    claim_C8_namespacing.2.1 "app" (.str "a") (.str "b") "a" "b" rfl rfl
      (by decide),
    claim_C8_namespacing.1 "app" (.str "user:1") "app:user:1" (by decide)⟩

/-- C9: delete_raw in both variants forwards its names to the master
verbatim (targeting raw store keys), while delete prefixes every name
with the tenant prefix and a colon; observably, delete_raw of a name
removes exactly the raw key and leaves every other key (the namespaced
one included) untouched, and delete does the reverse. -/
theorem claim_C9_delete_raw :
    ∀ (c : Client) (ac : AsyncClient) (e : SentinelEnv) (s : Store)
      (names : List String) (n : String),
      c.master = true → ac.connected = true → ac.master = true →
      (Client.delete_raw c s names).2 = s.removeAll names ∧
      (Client.delete c s names).2 =
        s.removeAll (names.map (fun x => mkKey c.app_pfx x)) ∧
      ((Client.delete_raw c s [n]).2).lookup n = none ∧
      (∀ k2, k2 ≠ n →
        ((Client.delete_raw c s [n]).2).lookup k2 = s.lookup k2) ∧
      ((Client.delete c s [n]).2).lookup (mkKey c.app_pfx n) = none ∧
      (∀ k2, k2 ≠ mkKey c.app_pfx n →
        ((Client.delete c s [n]).2).lookup k2 = s.lookup k2) ∧
      (AsyncClient.delete_raw e ac s names).2.2 = s.removeAll names ∧
      (AsyncClient.delete e ac s names).2.2 =
        s.removeAll (names.map (fun x => mkKey ac.app_pfx x)) := by
  intro c ac e s names n h1 h2 h3
  have hconn : AsyncClient.ensureConnected e ac = (.ok (), ac) := by
    simp [AsyncClient.ensureConnected, h2]
  refine ⟨?_, ?_, ?_, ?_, ?_, ?_, ?_, ?_⟩
  · simp [Client.delete_raw, h1]
  · simp [Client.delete, h1]
  · simp only [Client.delete_raw, h1, Bool.true_eq_false, if_false]
    show (Store.removeAll s [n]).lookup n = none
    exact lookup_remove_self s n
  · intro k2 hk
    simp only [Client.delete_raw, h1, Bool.true_eq_false, if_false]
    show (Store.removeAll s [n]).lookup k2 = s.lookup k2
    exact lookup_remove_ne s n k2 hk
  · simp only [Client.delete, h1, Bool.true_eq_false, if_false]
    show (Store.removeAll s [mkKey c.app_pfx n]).lookup (mkKey c.app_pfx n) = none
    exact lookup_remove_self s (mkKey c.app_pfx n)
  · intro k2 hk
    simp only [Client.delete, h1, Bool.true_eq_false, if_false]
    show (Store.removeAll s [mkKey c.app_pfx n]).lookup k2 = s.lookup k2
    exact lookup_remove_ne s (mkKey c.app_pfx n) k2 hk
  · simp [AsyncClient.delete_raw, hconn, h3]
  · simp [AsyncClient.delete, hconn, h3]

theorem claim_C9_delete_raw_witness :
    ((Client.delete_raw (Client.initial "app")
      [("k", RVal.str (.utf8 "raw")), ("app:k", RVal.str (.utf8 "ns"))]
      ["k"]).2).lookup "k" = none ∧
    ((Client.delete_raw (Client.initial "app")
      [("k", RVal.str (.utf8 "raw")), ("app:k", RVal.str (.utf8 "ns"))]
      ["k"]).2).lookup "app:k" = some (RVal.str (.utf8 "ns")) ∧
    ((Client.delete (Client.initial "app")
      [("k", RVal.str (.utf8 "raw")), ("app:k", RVal.str (.utf8 "ns"))]
      ["k"]).2).lookup "app:k" = none := by
  have h := claim_C9_delete_raw (Client.initial "app")
    { app_pfx := "app", sentinel := true, master := true, slave := true,
      connected := true } ⟨true, true⟩
    [("k", RVal.str (.utf8 "raw")), ("app:k", RVal.str (.utf8 "ns"))]
    ["k"] "k" rfl rfl rfl
  refine ⟨h.2.2.1, ?_, ?_⟩
  · have := h.2.2.2.1 "app:k" (by decide)
    rw [this]
    decide
  · have := h.2.2.2.2.1
    simpa using this

/-- C10: the blocking close() resets connected but leaves the master and
slave attributes assigned, so every modelled public operation invoked
after close() passes the absent-connection guard and never raises
InitError; and close() is idempotent on the client state. -/
theorem claim_C10_close :
    ∀ (c : Client) (s : Store) (op : BOp), c.master = true → c.slave = true →
      (Client.close c).connected = false ∧
      (Client.close c).master = true ∧
      (Client.close c).slave = true ∧
      (Client.invoke (Client.close c) s op).1 ≠ .error .initError ∧
      Client.close (Client.close c) = Client.close c := by
  intro c s op h1 h2
  refine ⟨rfl, h1, h2, ?_, rfl⟩
  exact invoke_no_initError (Client.close c) s op h1 h2

theorem claim_C10_close_witness :
    (Client.close (Client.initial "app")).connected = false ∧
    (Client.invoke (Client.close (Client.initial "app")) []
      (.getOp (.str "x"))).1 ≠ .error .initError ∧
    Client.close (Client.close (Client.initial "app")) =
      Client.close (Client.initial "app") := by
  have h := claim_C10_close (Client.initial "app") [] (.getOp (.str "x"))
    rfl rfl
  exact ⟨h.1, h.2.2.2.1, h.2.2.2.2⟩

/-- C7: in every reachable state of either variant, the connected flag
implies that both the master and the slave connection are present. The
reachable states are those generated from the post-construction state
(blocking) or the fresh state (suspending) by the modelled transitions:
completed or cancelled connects, close, and the public operations. -/
theorem claim_C7_connected_invariant :
    (∀ (p : String) (c : Client),
      Relation.ReflTransGen ClientStep (Client.initial p) c →
      c.connected = true → c.master = true ∧ c.slave = true) ∧
    (∀ (p : String) (c : AsyncClient),
      Relation.ReflTransGen AsyncStep (AsyncClient.initial p) c →
      c.connected = true → c.master = true ∧ c.slave = true) := by
  constructor
  · intro p c h
    induction h with
    | refl => exact fun _ => ⟨rfl, rfl⟩
    | tail hsteps hstep ih => exact clientStep_preserves_Inv ih hstep
  · intro p c h
    induction h with
    | refl => intro hc; exact absurd hc (by simp [AsyncClient.initial])
    | tail hsteps hstep ih => exact asyncStep_preserves_Inv ih hstep

theorem claim_C7_connected_invariant_witness :
    ((Client.initial "app").master = true ∧ (Client.initial "app").slave = true) ∧
    (((AsyncClient.connect ⟨true, true⟩ (AsyncClient.initial "app")).2).master = true ∧
      ((AsyncClient.connect ⟨true, true⟩ (AsyncClient.initial "app")).2).slave = true) :=
  ⟨claim_C7_connected_invariant.1 "app" (Client.initial "app")
      Relation.ReflTransGen.refl rfl,
    claim_C7_connected_invariant.2 "app" _
      (Relation.ReflTransGen.single
        (AsyncStep.connectDone ⟨true, true⟩ (AsyncClient.initial "app")))
      (by decide)⟩

/-- C5 counterexample: in the suspending variant, a fresh client has no
master connection (the required role connection for set is None), yet
awaiting set with a reachable monitoring cluster raises nothing at all -
it implicitly connects, succeeds, and writes to the store, so the claim
that every operation with an absent role connection raises InitError
with no side effect fails. -/
theorem claim_C5_counterexample :
    (AsyncClient.initial "app").master = false ∧
    (AsyncClient.set ⟨true, true⟩ (AsyncClient.initial "app") []
      (.str "k") (.str "v")).1 = .ok .okSimple ∧
    (AsyncClient.set ⟨true, true⟩ (AsyncClient.initial "app") []
      (.str "k") (.str "v")).2.2 =
      [("app:k", RVal.str (.pickled (.str "v")))] := ⟨rfl, rfl, rfl⟩

/-- C5 (amended): in the blocking variant, invoking any of the modelled
public operations (the generator-based scan iterators excepted, which
run no code at invocation) whose required role connection is None raises
InitError and leaves the store unchanged (operations never mutate client
state); in the suspending variant an absent connection instead triggers
the implicit connect, after which the operation proceeds normally (or
fails with the connect error), so InitError is not raised on that
path. -/
theorem claim_C5_absent_connection :
    (∀ (op : BOp) (c : Client) (s : Store), c.hasRole op.role = false →
      Client.invoke c s op = (.error .initError, s)) ∧
    (∀ (e : SentinelEnv) (ac : AsyncClient) (s : Store) (name : PyKey)
      (v : PyVal), ac.connected = false → e.constructOk = true →
      e.discoveryOk = true →
      (AsyncClient.set e ac s name v).1 ≠ .error .initError) := by
  constructor
  · intro op c s h
    cases op <;>
      simp_all [Client.invoke, BOp.role, Client.hasRole, Client.ping,
        Client.set, Client.get, Client.incr, Client.mget, Client.mset,
        Client.delete, Client.delete_raw, Client.exists_, Client.keys,
        Client.scan, Client.hset, Client.hget, Client.hgetall]
  · intro e ac s name v h1 h2 h3
    simp only [AsyncClient.set, AsyncClient.ensureConnected, h1,
      Bool.false_eq_true, if_false, AsyncClient.connect, h2, h3]
    simp only [Bool.true_eq_false, if_false]
    cases make_key ac.app_pfx name <;> simp

theorem claim_C5_absent_connection_witness :
    Client.invoke
      { app_pfx := "app", sentinel := false, master := false, slave := false,
        connected := false } [] (.setOp (.str "k") (.str "v")) =
      (.error .initError, []) ∧
    (AsyncClient.set ⟨true, true⟩ (AsyncClient.initial "app") []
      (.str "k") (.str "v")).1 ≠ .error .initError :=
  ⟨claim_C5_absent_connection.1 (.setOp (.str "k") (.str "v"))
      { app_pfx := "app", sentinel := false, master := false, slave := false,
        connected := false } [] rfl,
    claim_C5_absent_connection.2 ⟨true, true⟩ (AsyncClient.initial "app") []
      (.str "k") (.str "v") rfl rfl rfl⟩

def exceptDecEq {ε α : Type} [DecidableEq ε] [DecidableEq α] :
    (a b : Except ε α) → Decidable (a = b)
  | .ok a, .ok b =>
    if h : a = b then isTrue (h ▸ rfl)
    else isFalse (fun hh => h (Except.ok.inj hh))
  | .error x, .error y =>
    if h : x = y then isTrue (h ▸ rfl)
    else isFalse (fun hh => h (Except.error.inj hh))
  | .ok _, .error _ => isFalse (fun h => Except.noConfusion h)
  | .error _, .ok _ => isFalse (fun h => Except.noConfusion h)

instance {ε α : Type} [DecidableEq ε] [DecidableEq α] :
    DecidableEq (Except ε α) := exceptDecEq

/-- C1 counterexample: with prefix "app" and the bytes key b"x", set
writes the store key "app:x" (make_key UTF-8 decodes the raw bytes),
which differs from prefix:str(key) = "app:b'x'"; get then applies str()
before make_key and reads "app:b'x'", so it returns None instead of the
value just written - the set/get round trip fails for bytes keys. -/
theorem claim_C1_counterexample :
    (Client.set (Client.initial "app") [] (.bytes [120]) (.str "a")).2 =
      [("app:x", RVal.str (.pickled (.str "a")))] ∧
    "app:x" ≠ "app:" ++ pyStr (.bytes [120]) ∧
    (Client.get (Client.initial "app")
      ((Client.set (Client.initial "app") [] (.bytes [120]) (.str "a")).2)
      (.bytes [120])).1 = .ok .noneR ∧
    (Except.ok Res.noneR : Except Err Res) ≠ .ok (.py (.str "a")) := by
  refine ⟨rfl, by decide, rfl, by decide⟩

/-- C1 (amended): in the blocking variant, for every connected client
and every raw key whose make_key image coincides with the make_key
image of its str() form (all text and integer keys; bytes and
memoryview keys are excluded because the blocking set applies make_key
to the raw key while the blocking get applies it to the str() form),
set followed by get with no intervening write returns the value
written, and the underlying store key is prefix, colon, str(key). In
the suspending variant, set and get both apply make_key to the raw key
(asyncio.py lines 169 and 189 have no str() wrapper), so the round trip
returns the value written for every raw key on which make_key succeeds,
the underlying store key being the make_key image - equal to prefix,
colon, str(key) for text and integer keys. -/
theorem claim_C1_set_get_roundtrip :
    (∀ (c : Client) (s : Store) (k : PyKey) (v : PyVal),
      c.master = true → c.slave = true →
      make_key c.app_pfx k = some (mkKey c.app_pfx (pyStr k)) →
      (Client.set c s k v).1 = .ok .okSimple ∧
      ((Client.set c s k v).2).lookup (mkKey c.app_pfx (pyStr k)) =
        some (RVal.str (.pickled v)) ∧
      (Client.get c ((Client.set c s k v).2) k).1 = .ok (.py v)) ∧
    (∀ (e : SentinelEnv) (ac : AsyncClient) (s : Store) (k : PyKey)
      (v : PyVal) (P : String),
      ac.connected = true → ac.master = true → ac.slave = true →
      make_key ac.app_pfx k = some P →
      (AsyncClient.set e ac s k v).1 = .ok .okSimple ∧
      ((AsyncClient.set e ac s k v).2.2).lookup P =
        some (RVal.str (.pickled v)) ∧
      (AsyncClient.get e ac ((AsyncClient.set e ac s k v).2.2) k).1 =
        .ok (.py v)) := by
  constructor
  · intro c s k v h1 h2 hk
    have hset : Client.set c s k v =
        (.ok .okSimple, s.insert (mkKey c.app_pfx (pyStr k))
          (RVal.str (.pickled v))) := by
      simp [Client.set, h1, hk]
    refine ⟨by rw [hset], ?_, ?_⟩
    · rw [hset]
      exact lookup_insert s _ _
    · rw [hset]
      simp only [Client.get, h2, Bool.true_eq_false, if_false]
      rw [lookup_insert]
      simp [pickleLoads]
  · intro e ac s k v P h1 h2 h3 hk
    have hconn : AsyncClient.ensureConnected e ac = (.ok (), ac) := by
      simp [AsyncClient.ensureConnected, h1]
    have hset : AsyncClient.set e ac s k v =
        (.ok .okSimple, ac, s.insert P (RVal.str (.pickled v))) := by
      simp [AsyncClient.set, hconn, h2, hk]
    refine ⟨by rw [hset], ?_, ?_⟩
    · rw [hset]
      exact lookup_insert s _ _
    · rw [hset]
      simp only [AsyncClient.get, hconn, h3, Bool.true_eq_false, if_false,
        hk]
      rw [lookup_insert]
      simp [pickleLoads]

theorem claim_C1_set_get_roundtrip_witness :
    ((Client.set (Client.initial "app") [] (.str "user:1")
      (.dict [("name", .str "a")])).1 = .ok .okSimple ∧
    ((Client.set (Client.initial "app") [] (.str "user:1")
      (.dict [("name", .str "a")])).2).lookup "app:user:1" =
      some (RVal.str (.pickled (.dict [("name", .str "a")]))) ∧
    (Client.get (Client.initial "app")
      ((Client.set (Client.initial "app") [] (.str "user:1")
        (.dict [("name", .str "a")])).2) (.str "user:1")).1 =
      .ok (.py (.dict [("name", .str "a")]))) ∧
    ((AsyncClient.set ⟨true, true⟩
      { app_pfx := "app", sentinel := true, master := true, slave := true,
        connected := true } [] (.str "user:1")
      (.dict [("name", .str "a")])).1 = .ok .okSimple ∧
    ((AsyncClient.set ⟨true, true⟩
      { app_pfx := "app", sentinel := true, master := true, slave := true,
        connected := true } [] (.str "user:1")
      (.dict [("name", .str "a")])).2.2).lookup "app:user:1" =
      some (RVal.str (.pickled (.dict [("name", .str "a")]))) ∧
    (AsyncClient.get ⟨true, true⟩
      { app_pfx := "app", sentinel := true, master := true, slave := true,
        connected := true }
      ((AsyncClient.set ⟨true, true⟩
        { app_pfx := "app", sentinel := true, master := true, slave := true,
          connected := true } [] (.str "user:1")
        (.dict [("name", .str "a")])).2.2) (.str "user:1")).1 =
      .ok (.py (.dict [("name", .str "a")]))) :=
  ⟨claim_C1_set_get_roundtrip.1 (Client.initial "app") [] (.str "user:1")
      (.dict [("name", .str "a")]) rfl rfl rfl,
    claim_C1_set_get_roundtrip.2 ⟨true, true⟩
      { app_pfx := "app", sentinel := true, master := true, slave := true,
        connected := true } [] (.str "user:1")
      (.dict [("name", .str "a")]) "app:user:1" rfl rfl rfl rfl⟩

/-- C2 counterexample: on the Scenario E input, the suspending variant
disagrees with the blocking variant - its hset stores the raw texts
without the codec and its hgetall returns the raw byte-to-byte reply
dictionary, not the decoded plain-text dictionary the blocking variant
returns. -/
theorem claim_C2_counterexample :
    (AsyncClient.hgetall ⟨true, true⟩
      { app_pfx := "app", sentinel := true, master := true, slave := true,
        connected := true }
      ((AsyncClient.hset ⟨true, true⟩
        { app_pfx := "app", sentinel := true, master := true, slave := true,
          connected := true } [] (.str "h")
        [("f1", "v1"), ("f2", "v2")]).2.2) (.str "h")).1 ≠
      (Client.hgetall (Client.initial "app")
        ((Client.hset (Client.initial "app") [] (.str "h")
          [("f1", .str "v1"), ("f2", .str "v2")]).2) (.str "h")).1 ∧
    (AsyncClient.hgetall ⟨true, true⟩
      { app_pfx := "app", sentinel := true, master := true, slave := true,
        connected := true }
      ((AsyncClient.hset ⟨true, true⟩
        { app_pfx := "app", sentinel := true, master := true, slave := true,
          connected := true } [] (.str "h")
        [("f1", "v1"), ("f2", "v2")]).2.2) (.str "h")).1 ≠
      .ok (.dictSP [("f1", .str "v1"), ("f2", .str "v2")]) := by
  refine ⟨by decide, by decide⟩

/-- C2 (amended): on the Scenario E input the blocking variant returns
the dictionary f1 to v1, f2 to v2 with plain-text field names and
codec-decoded values; the suspending variant applies no codec on hset
and returns the raw reply of hgetall unchanged (field-name bytes to
value bytes), so the two variants do not agree on the result. -/
theorem claim_C2_hset_hgetall :
    (Client.hgetall (Client.initial "app")
      ((Client.hset (Client.initial "app") [] (.str "h")
        [("f1", .str "v1"), ("f2", .str "v2")]).2) (.str "h")).1 =
      .ok (.dictSP [("f1", .str "v1"), ("f2", .str "v2")]) ∧
    (AsyncClient.hgetall ⟨true, true⟩
      { app_pfx := "app", sentinel := true, master := true, slave := true,
        connected := true }
      ((AsyncClient.hset ⟨true, true⟩
        { app_pfx := "app", sentinel := true, master := true, slave := true,
          connected := true } [] (.str "h")
        [("f1", "v1"), ("f2", "v2")]).2.2) (.str "h")).1 =
      .ok (.dictBB [(.utf8 "f1", .utf8 "v1"), (.utf8 "f2", .utf8 "v2")]) := by
  refine ⟨by decide, by decide⟩

/-- C3 counterexample: on a fresh suspending client with the monitoring
cluster unreachable (discovery fails), get("x") raises ConnectionError,
not SentinelError; the connected flag stays false and the sentinel
attribute shows the implicit connect attempt happened. -/
theorem claim_C3_counterexample :
    (AsyncClient.get ⟨true, false⟩ (AsyncClient.initial "app") []
      (.str "x")).1 = .error .connectionError ∧
    Err.connectionError ≠ Err.sentinelError ∧
    ((AsyncClient.get ⟨true, false⟩ (AsyncClient.initial "app") []
      (.str "x")).2.1).connected = false ∧
    ((AsyncClient.get ⟨true, false⟩ (AsyncClient.initial "app") []
      (.str "x")).2.1).sentinel = true := by
  refine ⟨rfl, by decide, rfl, rfl⟩

/-- C3 (amended): in the suspending variant, get before any successful
connect triggers an implicit connect attempt; no environment makes that
path raise SentinelError (asyncio.py raises it nowhere), and when the
monitoring cluster is unreachable (discovery fails) the call raises
ConnectionError with connected still false afterwards, the assigned
sentinel attribute witnessing the connect attempt. -/
theorem claim_C3_lazy_connect_error :
    ∀ (c : AsyncClient) (s : Store) (name : PyKey), c.connected = false →
      (∀ e : SentinelEnv,
        (AsyncClient.get e c s name).1 ≠ .error .sentinelError) ∧
      (∀ e : SentinelEnv, e.constructOk = true → e.discoveryOk = false →
        (AsyncClient.get e c s name).1 = .error .connectionError ∧
        ((AsyncClient.get e c s name).2.1).connected = false ∧
        ((AsyncClient.get e c s name).2.1).sentinel = true) := by
  intro c s name h
  constructor
  · intro e
    simp only [AsyncClient.get, AsyncClient.ensureConnected, h,
      Bool.false_eq_true, if_false, AsyncClient.connect]
    by_cases h1 : e.constructOk = false
    · rw [if_pos h1]; simp
    · rw [if_neg h1]
      by_cases h2 : e.discoveryOk = false
      · rw [if_pos h2]; simp
      · rw [if_neg h2]
        simp only []
        (repeat' split) <;> simp
  · intro e h1 h2
    simp only [AsyncClient.get, AsyncClient.ensureConnected, h,
      Bool.false_eq_true, if_false, AsyncClient.connect, h1, h2]
    refine ⟨rfl, ?_, rfl⟩
    simp [h]

theorem claim_C3_lazy_connect_error_witness :
    (AsyncClient.get ⟨false, false⟩ (AsyncClient.initial "app") []
      (.str "x")).1 ≠ .error .sentinelError ∧
    (AsyncClient.get ⟨true, false⟩ (AsyncClient.initial "app") []
      (.str "x")).1 = .error .connectionError :=
  ⟨(claim_C3_lazy_connect_error (AsyncClient.initial "app") [] (.str "x")
      rfl).1 ⟨false, false⟩,
    ((claim_C3_lazy_connect_error (AsyncClient.initial "app") [] (.str "x")
      rfl).2 ⟨true, false⟩ rfl rfl).1⟩

/-- C4 counterexample: scan does not transform its pattern at all - with
prefix "app" and pattern "secret" it matches and returns the raw key
"secret" belonging to another tenant (the make_key transform would have
produced "app:secret"); and the blocking keys operation transforms a
bytes pattern through str() (repr), not through make_key, so with
pattern b"x" it matches nothing even though the make_key-transformed
pattern "app:x" names an existing key. -/
theorem claim_C4_counterexample :
    (Client.scan (Client.initial "app")
      [("secret", RVal.str (.utf8 "s")), ("app:secret", RVal.str (.utf8 "t"))]
      0 (some "secret")).1 = .ok (.scanPair 0 [.utf8 "secret"]) ∧
    make_key "app" (.str "secret") = some "app:secret" ∧
    "secret" ≠ "app:secret" ∧
    (Client.keys (Client.initial "app") [("app:x", RVal.str (.utf8 "s"))]
      (.bytes [120])).1 = .ok (.bstrList []) ∧
    make_key "app" (.bytes [120]) = some "app:x" := by
  refine ⟨by decide, by decide, by decide, by decide, by decide⟩

/-- C4 (amended): the suspending keys operation transforms its pattern
exactly as make_key, so (for a wildcard-free prefix) every key it can
return lies inside the tenant namespace; the blocking keys operation
prepends prefix and colon to str(pattern), which agrees with make_key on
text patterns but repr-converts bytes patterns instead of UTF-8 decoding
them; scan in both variants forwards the match pattern verbatim with no
prefix, so scan-based enumeration is not restricted to the tenant
namespace. -/
theorem claim_C4_pattern_transform :
    (∀ (c : Client) (s : Store) (t : String), c.slave = true →
      Client.keys c s (.str t) =
        (.ok (.bstrList (((s.keysOf).filter (fun k2 =>
          globMatch (mkKey c.app_pfx t).data k2.data)).map .utf8)), s) ∧
      make_key c.app_pfx (.str t) = some (mkKey c.app_pfx t)) ∧
    (∀ (c : Client) (s : Store) (b : Bytes), c.slave = true →
      Client.keys c s (.bytes b) =
        (.ok (.bstrList (((s.keysOf).filter (fun k2 =>
          globMatch (c.app_pfx ++ ":" ++ bytesRepr b).data k2.data)).map
            .utf8)), s)) ∧
    (∀ (c : Client) (s : Store) (cur : Int) (p2 : String), c.slave = true →
      Client.scan c s cur (some p2) =
        (.ok (.scanPair 0 (((s.keysOf).filter (fun k2 =>
          globMatch p2.data k2.data)).map .utf8)), s)) ∧
    (∀ (e : SentinelEnv) (ac : AsyncClient) (s : Store) (cur : Int)
      (p2 : String), ac.connected = true → ac.slave = true →
      AsyncClient.scan e ac s cur (some p2) =
        (.ok (.scanPair 0 (((s.keysOf).filter (fun k2 =>
          globMatch p2.data k2.data)).map .utf8)), ac, s)) ∧
    (∀ (e : SentinelEnv) (ac : AsyncClient) (s : Store) (pat : PyKey)
      (P : String) (l : List BStr), ac.connected = true → ac.slave = true →
      (∀ ch ∈ (ac.app_pfx ++ ":").data,
        ch ≠ Char.ofNat 42 ∧ ch ≠ Char.ofNat 63) →
      make_key ac.app_pfx pat = some P →
      (AsyncClient.keys e ac s pat).1 = .ok (.bstrList l) →
      ∀ b2 ∈ l, ∃ t tail, b2 = BStr.utf8 t ∧
        t.data = (ac.app_pfx ++ ":").data ++ tail) := by
  refine ⟨?_, ?_, ?_, ?_, ?_⟩
  · intro c s t h
    exact ⟨by simp [Client.keys, h, pyStr, mkKey], rfl⟩
  · intro c s b h
    simp [Client.keys, h, pyStr]
  · intro c s cur p2 h
    simp [Client.scan, h]
  · intro e ac s cur p2 h1 h2
    simp [AsyncClient.scan, AsyncClient.ensureConnected, h1, h2]
  · intro e ac s pat P l h1 h2 hmeta hmk hres b2 hb2
    have hconn : AsyncClient.ensureConnected e ac = (.ok (), ac) := by
      simp [AsyncClient.ensureConnected, h1]
    rw [AsyncClient.keys, hconn] at hres
    simp only [h2, Bool.true_eq_false, if_false, hmk] at hres
    have hl : l = ((s.keysOf).filter (fun k2 =>
        globMatch P.data k2.data)).map .utf8 :=
      ((Res.bstrList.inj (Except.ok.inj hres)).symm)
    subst hl
    rcases List.mem_map.mp hb2 with ⟨t, ht, rfl⟩
    have hmatch : globMatch P.data t.data = true :=
      (List.mem_filter.mp ht).2
    rcases make_key_eq_strRep ac.app_pfx pat ▸ hmk with hmk2
    cases hsr : strRep pat with
    | none => rw [hsr] at hmk2; exact absurd hmk2 (by simp)
    | some r =>
      rw [hsr] at hmk2
      simp only [Option.map, Option.some.injEq] at hmk2
      have hP : P.data = (ac.app_pfx ++ ":").data ++ r.data := by
        rw [← hmk2]
        simp [String.data_append, List.append_assoc]
      rw [hP] at hmatch
      rcases globMatch_literal_peel _ _ _ hmeta hmatch with ⟨tail, htl, _⟩
      exact ⟨t, tail, rfl, htl⟩

theorem claim_C4_pattern_transform_witness :
    (∃ t tail, BStr.utf8 "app:x" = BStr.utf8 t ∧
      t.data = ("app" ++ ":").data ++ tail) ∧
    make_key "app" (.str "u*") = some "app:u*" :=
  ⟨(claim_C4_pattern_transform.2.2.2.2 ⟨true, true⟩
      { app_pfx := "app", sentinel := true, master := true, slave := true,
        connected := true }
      [("app:x", RVal.str (.utf8 "s"))] (.str "x") "app:x" [.utf8 "app:x"]
      rfl rfl (by decide) (by decide) (by decide) (.utf8 "app:x")
      (by decide)),
    (claim_C4_pattern_transform.1
      { app_pfx := "app", sentinel := true, master := true, slave := true,
        connected := true }
      [] "u*" rfl).2⟩
